import Mathlib

/-!
# Verification of the benchmark harness (`src/benchmark.js`)

A shallow embedding of the load-generation harness: the per-request
dispatcher `makeRequest`, the warmup/batched measurement loop and the
statistics aggregation of `benchmarkRoute`, and the top-level orchestration
`runBenchmarks` with its entry-point error handling.

Modelling conventions:
* JavaScript numbers (latencies, times) are modelled as rationals `ℚ`;
  the non-finite sentinels (`NaN` from `0/0`, `undefined` from
  out-of-range array indexing) are modelled as `none : Option ℚ`.
* Asynchronous effects are modelled by environments: `env : ℕ → Outcome`
  gives the settled outcome of the i-th dispatched request, and an
  explicit event trace records dispatch/settle ordering where a claim is
  about temporal behaviour.
* A JavaScript promise settles at most once: the first `resolve`/`reject`
  call wins and later ones are ignored.  `makeRequest` is given the
  chronological list of callbacks that fire and folds them with
  first-settle-wins semantics.
-/

namespace Bench

/-- Outcome of one dispatched request as seen by the caller of
`makeRequest` (benchmark.js:79-106): the returned promise either resolves
with a latency sample and a status code (line 93) or rejects
(lines 98 and 103). -/
inductive Outcome
  | success (time : ℚ) (statusCode : ℕ)
  | failure
deriving DecidableEq, Repr

/-- A callback event that can fire for one in-flight request of
`makeRequest`: the response `end` handler (line 91), the transport
`error` handler (line 97), or the timeout handler (line 101). -/
inductive MREvent
  | responseEnd (time : ℚ) (statusCode : ℕ)
  | errorEv
  | timeoutFire
deriving DecidableEq, Repr

/-- How each callback tries to settle the promise of `makeRequest`:
`responseEnd` resolves with the measured latency, `errorEv` and
`timeoutFire` both reject. -/
def settleOf : MREvent → Outcome
  | .responseEnd t s => .success t s
  | .errorEv => .failure
  | .timeoutFire => .failure

/-- `makeRequest` (benchmark.js:79-106).  `events` is the chronological
sequence of callbacks that fire for this request; each one calls
`resolve` or `reject`, and the promise keeps the first settlement only
(later calls are no-ops, the JavaScript promise semantics).  `none` means
no callback ever fired (the promise never settles). -/
def makeRequest (events : List MREvent) : Option Outcome :=
  events.foldl
    (fun acc e =>
      match acc with
      | some o => some o
      | none => some (settleOf e))
    none

/-- Size of measurement batch `k`:
`Math.min(batchSize, count - batch * batchSize)` (benchmark.js:134). -/
def batchCount (batchSize count k : ℕ) : ℕ :=
  min batchSize (count - k * batchSize)

/-- Number of measurement batches, `Math.ceil(count / batchSize)`
(benchmark.js:131), in exact natural-number arithmetic. -/
def numBatches (batchSize count : ℕ) : ℕ :=
  (count + batchSize - 1) / batchSize

/-- The `.then` / `.catch` handlers attached to each measurement dispatch
(benchmark.js:140-145): a resolved request pushes its latency onto
`times`, a rejected one increments `errors`. -/
def processOutcome : List ℚ × ℕ → Outcome → List ℚ × ℕ
  | (times, errors), .success t _ => (times ++ [t], errors)
  | (times, errors), .failure => (times, errors + 1)

/-- The outcomes of batch `k`: its `i`-th dispatch is measurement request
number `k * batchSize + i`, whose settled outcome the environment `env`
supplies. -/
def batchOutcomes (env : ℕ → Outcome) (batchSize count k : ℕ) : List Outcome :=
  (List.range (batchCount batchSize count k)).map (fun i => env (k * batchSize + i))

/-- The measurement loop (benchmark.js:133-150): for each batch, dispatch
`batchCount` requests, record each settled outcome via
`processOutcome`, and `await Promise.all` before the next batch.  The
latencies are recorded in the order the requests settle; since the
aggregation sorts them (line 156) we collect them in dispatch order here,
and the settle ordering is modelled separately by `measurementTrace`. -/
def runMeasurement (env : ℕ → Outcome) (batchSize count : ℕ)
    (st : List ℚ × ℕ) : List ℚ × ℕ :=
  (List.range (numBatches batchSize count)).foldl
    (fun s k => (batchOutcomes env batchSize count k).foldl processOutcome s)
    st

/-- The warmup loop (benchmark.js:117-123): `warmupCount` iterations, each
awaiting one request and discarding its outcome (`catch` ignores warmup
errors), touching neither `times` nor `errors`. -/
def runWarmup (warmupEnv : ℕ → Outcome) (warmupCount : ℕ)
    (st : List ℚ × ℕ) : List ℚ × ℕ :=
  (List.range warmupCount).foldl
    (fun s i =>
      match warmupEnv i with
      | _ => s)
    st

/-- JavaScript float division where a zero divisor produces a non-finite
value (`NaN` for `0/0`, as in `avg` over an empty sample list), modelled
as the sentinel `none`. -/
def jsDiv (a b : ℚ) : Option ℚ :=
  if b = 0 then none else some (a / b)

/-- `Math.floor(n * p)`, the nearest-rank percentile index
(benchmark.js:160-162). -/
def percentileIndex (n : ℕ) (p : ℚ) : ℕ :=
  (Int.floor ((n : ℚ) * p)).toNat

/-- The latency aggregates of a scenario (benchmark.js:176); `none`
models the `NaN`/`undefined` sentinels JavaScript produces when the
sample list is empty. -/
structure LatencyStats where
  avg : Option ℚ
  min : Option ℚ
  max : Option ℚ
  p50 : Option ℚ
  p95 : Option ℚ
  p99 : Option ℚ
deriving DecidableEq, Repr

/-- The statistics block (benchmark.js:156-162): sort ascending, then
`avg = sum / length`, `min = times[0]`, `max = times[length-1]`,
`pN = times[Math.floor(length * N/100)]`.  Out-of-range indexing yields
JavaScript `undefined`, modelled by the `Option`-valued getter. -/
def computeStats (times : List ℚ) : LatencyStats :=
  let sorted := times.insertionSort (· ≤ ·)
  { avg := jsDiv sorted.sum sorted.length
    min := sorted[0]?
    max := sorted[sorted.length - 1]?
    p50 := sorted[percentileIndex sorted.length (1 / 2)]?
    p95 := sorted[percentileIndex sorted.length (95 / 100)]?
    p99 := sorted[percentileIndex sorted.length (99 / 100)]? }

/-- The record returned by `benchmarkRoute` (benchmark.js:171-178). -/
structure ScenarioResult where
  name : String
  count : ℕ
  totalTime : ℚ
  reqPerSec : Option ℚ
  latency : LatencyStats
  errors : ℕ
deriving DecidableEq, Repr

/-- The result record of `benchmarkRoute` (benchmark.js:109-179):
warmup, then the batched measurement loop, then the statistics of lines
156-163 and the record built at lines 171-178.  `totalTime` is the wall
clock measured around the measurement phase (lines 127 and 152-153), an
input of the environment here; `reqPerSec = (count / totalTime) * 1000`
(line 163).  The per-scenario log block of lines 165-169, which runs
between these computations and the `return` and can throw, is modelled
by `logStatsOk` and `benchmarkRouteRun` below: this record is only
reached when that block does not throw. -/
def benchmarkRoute (name : String) (warmupEnv env : ℕ → Outcome)
    (warmupCount count batchSize : ℕ) (totalTime : ℚ) : ScenarioResult :=
  let st := runMeasurement env batchSize count (runWarmup warmupEnv warmupCount ([], 0))
  { name := name
    count := count
    totalTime := totalTime
    reqPerSec := (jsDiv (count : ℚ) totalTime).map (fun x => x * 1000)
    latency := computeStats st.1
    errors := st.2 }

/-- The per-scenario log block (benchmark.js:165-169).  `totalTime`,
`reqPerSec` and `avg` are JavaScript numbers there — possibly the
non-finite `NaN`/`Infinity` of a zero divisor, which `toFixed` renders
as text without faulting — but `min`, `max` and the percentiles are
`undefined` when the sample list is empty, and `undefined.toFixed(2)`
throws a `TypeError`, first reached for `min` at line 167.  Returns
`true` exactly when the block completes without throwing. -/
def logStatsOk (latency : LatencyStats) : Bool :=
  latency.min.isSome && latency.max.isSome &&
    latency.p50.isSome && latency.p95.isSome && latency.p99.isSome

/-- The complete scenario run of `benchmarkRoute` past the measurement
phase: statistics (lines 156-163), then the log block (lines 165-169),
then the `return` of lines 171-178.  When the log block throws — empty
sample list, so `min.toFixed(2)` faults at line 167 — the async
function rejects with the `TypeError` and no `ScenarioResult` is
produced: `Except.error ()`. -/
def benchmarkRouteRun (name : String) (warmupEnv env : ℕ → Outcome)
    (warmupCount count batchSize : ℕ) (totalTime : ℚ) :
    Except Unit ScenarioResult :=
  let r := benchmarkRoute name warmupEnv env warmupCount count batchSize totalTime
  if logStatsOk r.latency then Except.ok r else Except.error ()

/-- Observable events of one whole benchmark run, in order. -/
inductive RunEvent
  | serverListen
  | scenarioRun (i : ℕ)
  | errorLogged
  | summaryPrinted
  | serverClosed
  | fatalLogged
deriving DecidableEq, Repr

/-- Environment of a run: whether the server starts (binds and reports
its port, benchmark.js:192-193), and which scenario runs, if any, raise
an unexpected fault. -/
structure RunEnv where
  listenOk : Bool
  scenarioFails : ℕ → Bool

/-- What a run produces: its ordered event trace and the process exit
status. -/
structure RunOutcome where
  events : List RunEvent
  exitCode : ℕ
deriving DecidableEq, Repr

/-- The six scenarios registered in `runBenchmarks`
(benchmark.js:201-223). -/
def scenarioTotal : ℕ := 6

/-- Index of the first scenario whose run raises, if any: the `try` block
runs the scenarios in order and the first fault aborts the rest. -/
def firstFailing (env : RunEnv) : Option ℕ :=
  (List.range scenarioTotal).find? env.scenarioFails

/-- `runBenchmarks` (benchmark.js:182-264) together with the entry point
(benchmark.js:267-272).  If the server fails to start, the fault is
raised before the `try` block, rejects the promise of `runBenchmarks`,
and the top-level `.catch` logs it and calls `process.exit(1)`.
Otherwise every scenario up to the first faulting one runs; a fault is
caught by the `catch` block (line 256), which logs it and skips the
summary; the `finally` block (line 258) closes the server on both paths,
`runBenchmarks` resolves normally, and the process exits 0. -/
def runBenchmarks (env : RunEnv) : RunOutcome :=
  if env.listenOk then
    match firstFailing env with
    | none =>
        { events := [.serverListen] ++ (List.range scenarioTotal).map .scenarioRun
            ++ [.summaryPrinted, .serverClosed]
          exitCode := 0 }
    | some i =>
        { events := [.serverListen] ++ (List.range (i + 1)).map .scenarioRun
            ++ [.errorLogged, .serverClosed]
          exitCode := 0 }
  else
    { events := [.fatalLogged], exitCode := 1 }

/-- A dispatch or a settlement in the sequential warmup loop. -/
inductive PhaseEvent
  | dispatch (i : ℕ)
  | settleEv (i : ℕ)
deriving DecidableEq, Repr

/-- The event trace of the warmup loop (benchmark.js:117-123): each
iteration dispatches one request and `await`s its settlement before the
next iteration starts. -/
def warmupTrace (warmupCount : ℕ) : List PhaseEvent :=
  (List.range warmupCount).flatMap (fun i => [.dispatch i, .settleEv i])

def isDispatchW : PhaseEvent → Bool
  | .dispatch _ => true
  | .settleEv _ => false

def isSettleW : PhaseEvent → Bool
  | .dispatch _ => false
  | .settleEv _ => true

/-- A dispatch or a settlement in the batched measurement phase,
tagged with its batch number and its slot within the batch. -/
inductive BatchEvent
  | dispatch (batch slot : ℕ)
  | settleEv (batch slot : ℕ)
deriving DecidableEq, Repr

def isDispatchB : BatchEvent → Bool
  | .dispatch _ _ => true
  | .settleEv _ _ => false

def isSettleB : BatchEvent → Bool
  | .dispatch _ _ => false
  | .settleEv _ _ => true

/-- The batch an event belongs to. -/
def batchOf : BatchEvent → ℕ
  | .dispatch k _ => k
  | .settleEv k _ => k

/-- Temporal sort key: all events of batch `k` lie strictly between the
events of batch `k-1` and those of batch `k+1`, and within a batch all
dispatches precede all settlements (the `Promise.all` barrier). -/
def eventKey : BatchEvent → ℕ
  | .dispatch k _ => 2 * k
  | .settleEv k _ => 2 * k + 1

/-- The event trace of batch `k` (benchmark.js:133-150): the loop at
line 137 issues all `batchCount` dispatches, then `await Promise.all`
(line 149) suspends until every one of them has settled.  The requests
settle in an order chosen by the scheduler, given here as the list
`σ k` (a permutation of the slots of batch `k`). -/
def batchBlock (batchSize count k : ℕ) (σ : ℕ → List ℕ) : List BatchEvent :=
  (List.range (batchCount batchSize count k)).map (BatchEvent.dispatch k)
    ++ (σ k).map (BatchEvent.settleEv k)

/-- The event trace of the whole measurement phase: the batch blocks in
order, batch `k + 1` starting only after batch `k` has fully settled. -/
def measurementTrace (batchSize count : ℕ) (σ : ℕ → List ℕ) : List BatchEvent :=
  (List.range (numBatches batchSize count)).flatMap
    (fun k => batchBlock batchSize count k σ)

/-- Combined size of the accumulated state: number of collected latency
samples plus the error count. -/
def stMeasure (st : List ℚ × ℕ) : ℕ := st.1.length + st.2

/-- The synthetic latency list `[1, 2, ..., 100]` (in ms). -/
def syntheticLatencies : List ℚ := (List.range 100).map (fun i : ℕ => (i : ℚ) + 1)

/-- The all-sentinel latency record JavaScript produces on an empty
sample list: `avg = NaN` (from `0/0`), the rest `undefined`. -/
def emptyLatencyStats : LatencyStats :=
  { avg := none, min := none, max := none, p50 := none, p95 := none, p99 := none }

/-- A run in which the server starts and the very first scenario run
raises an unexpected fault. -/
def envScenarioFault : RunEnv :=
  { listenOk := true, scenarioFails := fun _ => true }

/-- The server starts and the third scenario run faults. -/
def envThirdFails : RunEnv :=
  { listenOk := true, scenarioFails := fun i => i == 2 }

/-! ## Helper lemmas -/

theorem processOutcome_measure (st : List ℚ × ℕ) (o : Outcome) :
    stMeasure (processOutcome st o) = stMeasure st + 1 := by
  rcases st with ⟨t, e⟩
  cases o <;> simp [processOutcome, stMeasure] <;> omega

theorem foldl_processOutcome_measure (os : List Outcome) (st : List ℚ × ℕ) :
    stMeasure (os.foldl processOutcome st) = stMeasure st + os.length := by
  induction os generalizing st with
  | nil => simp
  | cons o os ih =>
    rw [List.foldl_cons, ih, processOutcome_measure, List.length_cons]
    omega

theorem runWarmup_eq (wEnv : ℕ → Outcome) (n : ℕ) (st : List ℚ × ℕ) :
    runWarmup wEnv n st = st := by
  unfold runWarmup
  induction List.range n generalizing st with
  | nil => rfl
  | cons a l ih => rw [List.foldl_cons]; exact ih st

theorem numBatches_zero (B : ℕ) (hB : 0 < B) : numBatches B 0 = 0 := by
  unfold numBatches
  exact Nat.div_eq_of_lt (by omega)

theorem numBatches_pos (B n : ℕ) (hB : 0 < B) (hn : 0 < n) :
    numBatches B n = (n - 1) / B + 1 := by
  unfold numBatches
  have h : n + B - 1 = (n - 1) + B := by omega
  rw [h, Nat.add_div_right _ hB]

theorem numBatches_sub (B n : ℕ) (hB : 0 < B) (hn : 0 < n) :
    numBatches B n = numBatches B (n - B) + 1 := by
  rcases le_or_lt n B with hle | hlt
  · have h0 : n - B = 0 := by omega
    rw [h0, numBatches_zero B hB, numBatches_pos B n hB hn,
      Nat.div_eq_of_lt (by omega)]
  · rw [numBatches_pos B n hB hn, numBatches_pos B (n - B) hB (by omega)]
    have h1 : n - B - 1 = (n - 1) - B := by omega
    rw [h1, ← Nat.div_eq_sub_div hB (by omega)]

/-- The batch sizes of the measurement loop sum to the requested count. -/
theorem sum_batchCount (B : ℕ) (hB : 0 < B) (n : ℕ) :
    ((List.range (numBatches B n)).map (fun k => batchCount B n k)).sum = n := by
  induction n using Nat.strong_induction_on with
  | _ n ih =>
    rcases Nat.eq_zero_or_pos n with h0 | hn
    · subst h0
      rw [numBatches_zero B hB]
      simp
    · rw [numBatches_sub B n hB hn, List.range_succ_eq_map]
      rw [List.map_cons, List.map_map, List.sum_cons]
      have hshift :
          ((fun k => batchCount B n k) ∘ Nat.succ) = fun k => batchCount B (n - B) k := by
        funext k
        simp only [Function.comp_apply]
        unfold batchCount
        congr 1
        rw [Nat.succ_mul]
        generalize k * B = m
        omega
      rw [hshift, ih (n - B) (by omega)]
      simp only [batchCount, Nat.zero_mul, Nat.sub_zero]
      rcases le_total B n with h | h
      · rw [min_eq_left h]
        omega
      · rw [min_eq_right h]
        omega

theorem runMeasurement_measure (env : ℕ → Outcome) (B n : ℕ) (hB : 0 < B)
    (st : List ℚ × ℕ) :
    stMeasure (runMeasurement env B n st) = stMeasure st + n := by
  unfold runMeasurement
  have key : ∀ (ks : List ℕ) (st : List ℚ × ℕ),
      stMeasure (ks.foldl
        (fun s k => (batchOutcomes env B n k).foldl processOutcome s) st)
        = stMeasure st + ((ks.map (fun k => batchCount B n k)).sum) := by
    intro ks
    induction ks with
    | nil => intro st; simp
    | cons k ks ihk =>
      intro st
      rw [List.foldl_cons, ihk, foldl_processOutcome_measure]
      have hlen : (batchOutcomes env B n k).length = batchCount B n k := by
        unfold batchOutcomes
        rw [List.length_map, List.length_range]
      rw [hlen, List.map_cons, List.sum_cons]
      omega
  rw [key, sum_batchCount B hB n]

/-! ## C1: the accounting invariant -/

/-- **C1.** For every completed scenario run, the reported request count
equals the number of collected latency samples plus the error count:
`requestCount == len(latencies) + errorCount`, for every scenario name,
every environment and all configured warmup/total/concurrency counts
(a positive concurrency limit; with limit 0 the loop at
benchmark.js:133 never terminates, so no run completes). -/
theorem c1_accounting (name : String) (wEnv env : ℕ → Outcome)
    (wc count batchSize : ℕ) (hB : 0 < batchSize) (totalTime : ℚ) :
    (benchmarkRoute name wEnv env wc count batchSize totalTime).count =
      (runMeasurement env batchSize count (runWarmup wEnv wc ([], 0))).1.length +
      (benchmarkRoute name wEnv env wc count batchSize totalTime).errors := by
  show count = _ + (runMeasurement env batchSize count (runWarmup wEnv wc ([], 0))).2
  have h := runMeasurement_measure env batchSize count hB (runWarmup wEnv wc ([], 0))
  rw [runWarmup_eq] at *
  unfold stMeasure at h
  simp at h
  omega

/-- Witness for C1 at a concrete input: two warm-up requests, seven
measured requests in batches of three. -/
theorem c1_accounting_witness :
    (benchmarkRoute "Simple Route" (fun _ => Outcome.failure)
        (fun _ => Outcome.failure) 2 7 3 10).count =
      (runMeasurement (fun _ => Outcome.failure) 3 7
        (runWarmup (fun _ => Outcome.failure) 2 ([], 0))).1.length +
      (benchmarkRoute "Simple Route" (fun _ => Outcome.failure)
        (fun _ => Outcome.failure) 2 7 3 10).errors :=
  c1_accounting "Simple Route" (fun _ => Outcome.failure)
    (fun _ => Outcome.failure) 2 7 3 (by decide) 10

/-! ## C3: nearest-rank percentile indexing -/

theorem syntheticLatencies_sorted :
    List.Sorted (· ≤ ·) syntheticLatencies := by
  unfold syntheticLatencies
  show List.Pairwise _ _
  rw [List.pairwise_map]
  apply List.Pairwise.imp ?_ (List.pairwise_lt_range 100)
  intro a b hab
  have h : (a : ℚ) < (b : ℚ) := by exact_mod_cast hab
  linarith

/-- **C3.** Percentiles are nearest-rank indexes into the
ascending-sorted latency list: on the synthetic list `[1,...,100]`,
`p50` is the element at index `floor(100*0.5) = 50`, namely `51`, and
`p99` is the element at index `floor(100*0.99) = 99`, namely `100` —
exact indexing, no interpolation. -/
theorem c3_percentile_nearest_rank :
    percentileIndex 100 (1 / 2) = 50 ∧
    percentileIndex 100 (99 / 100) = 99 ∧
    (computeStats syntheticLatencies).p50 = some 51 ∧
    (computeStats syntheticLatencies).p99 = some 100 := by
  have hlen : syntheticLatencies.length = 100 := by
    unfold syntheticLatencies
    rw [List.length_map, List.length_range]
  have hsort : syntheticLatencies.insertionSort (· ≤ ·) = syntheticLatencies :=
    syntheticLatencies_sorted.insertionSort_eq
  have hcast : ((100 : ℕ) : ℚ) = (100 : ℚ) := by norm_num
  have hi50 : percentileIndex 100 (1 / 2) = 50 := by
    unfold percentileIndex
    rw [hcast]
    have h : Int.floor ((100 : ℚ) * (1 / 2)) = 50 := by norm_num
    rw [h]
    rfl
  have hi99 : percentileIndex 100 (99 / 100) = 99 := by
    unfold percentileIndex
    rw [hcast]
    have h : Int.floor ((100 : ℚ) * (99 / 100)) = 99 := by norm_num
    rw [h]
    rfl
  refine ⟨hi50, hi99, ?_, ?_⟩
  · show (syntheticLatencies.insertionSort (· ≤ ·))[percentileIndex
      (syntheticLatencies.insertionSort (· ≤ ·)).length (1 / 2)]? = some 51
    rw [hsort, hlen, hi50]
    unfold syntheticLatencies
    rw [List.getElem?_map, List.getElem?_range (by norm_num)]
    norm_num
  · show (syntheticLatencies.insertionSort (· ≤ ·))[percentileIndex
      (syntheticLatencies.insertionSort (· ≤ ·)).length (99 / 100)]? = some 100
    rw [hsort, hlen, hi99]
    unfold syntheticLatencies
    rw [List.getElem?_map, List.getElem?_range (by norm_num)]
    norm_num

/-! ## C5: empty success set -/

theorem foldl_processOutcome_failure (os : List Outcome)
    (hos : ∀ o ∈ os, o = Outcome.failure) (st : List ℚ × ℕ) :
    (os.foldl processOutcome st).1 = st.1 := by
  induction os generalizing st with
  | nil => rfl
  | cons o os ih =>
    rw [List.foldl_cons]
    have ho : o = Outcome.failure := hos o (by simp)
    subst ho
    rw [ih (fun o hm => hos o (by simp [hm]))]
    rcases st with ⟨t, e⟩
    rfl

theorem runMeasurement_failure_times (env : ℕ → Outcome)
    (henv : ∀ i, env i = Outcome.failure) (B n : ℕ) (st : List ℚ × ℕ) :
    (runMeasurement env B n st).1 = st.1 := by
  unfold runMeasurement
  induction List.range (numBatches B n) generalizing st with
  | nil => rfl
  | cons k ks ih =>
    rw [List.foldl_cons, ih]
    apply foldl_processOutcome_failure
    intro o hm
    unfold batchOutcomes at hm
    rw [List.mem_map] at hm
    obtain ⟨i, _, rfl⟩ := hm
    exact henv _

theorem computeStats_nil : computeStats [] = emptyLatencyStats := by
  simp [computeStats, jsDiv, emptyLatencyStats]

theorem benchmarkRoute_failure_latency (name : String) (wEnv env : ℕ → Outcome)
    (wc count B : ℕ) (t : ℚ) (henv : ∀ i, env i = Outcome.failure) :
    (benchmarkRoute name wEnv env wc count B t).latency = emptyLatencyStats := by
  show computeStats (runMeasurement env B count (runWarmup wEnv wc ([], 0))).1 =
    emptyLatencyStats
  rw [runWarmup_eq, runMeasurement_failure_times env henv]
  exact computeStats_nil

theorem benchmarkRouteRun_failure (name : String) (wEnv env : ℕ → Outcome)
    (wc count B : ℕ) (t : ℚ) (henv : ∀ i, env i = Outcome.failure) :
    benchmarkRouteRun name wEnv env wc count B t = Except.error () := by
  have h := benchmarkRoute_failure_latency name wEnv env wc count B t henv
  simp only [benchmarkRouteRun]
  rw [h]
  rfl

/-- **C5 is false as stated**: in this run every measured request fails
(four failures in batches of two), and the scenario run does not return
a `ScenarioResult` — with the sample list empty, `min` is `undefined`
and the log block throws `TypeError` at benchmark.js:167
(`min.toFixed(2)`) before the `return` at line 171, rejecting the
run. -/
theorem c5_counterexample :
    benchmarkRouteRun "Simple Route" (fun _ => Outcome.failure)
      (fun _ => Outcome.failure) 1 4 2 10 = Except.error () :=
  benchmarkRouteRun_failure "Simple Route" (fun _ => Outcome.failure)
    (fun _ => Outcome.failure) 1 4 2 10 (fun _ => rfl)

/-- **C5 (amended).** When every measured request failed, the statistics
computation itself (benchmark.js:156-162) performs no faulting division
by zero — the `0/0` of `avg` produces the `NaN` sentinel — and
`min`/`max`/percentiles are the `undefined` sentinels; but the scenario
run does not return this `ScenarioResult`: the log block throws a
`TypeError` at line 167 (`min.toFixed(2)` on `undefined`) before the
`return` at line 171, so the run faults and the error follows the
caught-fault path of the benchmark. -/
theorem c5_empty_success_faults (name : String) (wEnv env : ℕ → Outcome)
    (wc count B : ℕ) (t : ℚ) (henv : ∀ i, env i = Outcome.failure) :
    computeStats [] = emptyLatencyStats ∧
    (benchmarkRoute name wEnv env wc count B t).latency = emptyLatencyStats ∧
    benchmarkRouteRun name wEnv env wc count B t = Except.error () :=
  ⟨computeStats_nil,
    benchmarkRoute_failure_latency name wEnv env wc count B t henv,
    benchmarkRouteRun_failure name wEnv env wc count B t henv⟩

/-- Witness for the amended C5: a concrete run in which all four
measured requests fail. -/
theorem c5_empty_success_faults_witness :
    computeStats [] = emptyLatencyStats ∧
    (benchmarkRoute "JSON Route (Header Cache)" (fun _ => Outcome.failure)
      (fun _ => Outcome.failure) 1 4 2 10).latency = emptyLatencyStats ∧
    benchmarkRouteRun "JSON Route (Header Cache)" (fun _ => Outcome.failure)
      (fun _ => Outcome.failure) 1 4 2 10 = Except.error () :=
  c5_empty_success_faults "JSON Route (Header Cache)" (fun _ => Outcome.failure)
    (fun _ => Outcome.failure) 1 4 2 10 (fun _ => rfl)

/-! ## C10: percentile indexes stay in bounds -/

theorem percentileIndex_lt (n : ℕ) (hn : 0 < n) (p : ℚ) (hp0 : 0 ≤ p)
    (hp1 : p < 1) : percentileIndex n p < n := by
  unfold percentileIndex
  have hnq : (0 : ℚ) < (n : ℚ) := by exact_mod_cast hn
  have h1 : (n : ℚ) * p < (n : ℚ) := by nlinarith
  have h2 : Int.floor ((n : ℚ) * p) < (n : ℤ) := by
    rw [Int.floor_lt]
    push_cast
    exact h1
  have h3 : (0 : ℤ) ≤ Int.floor ((n : ℚ) * p) := by
    rw [Int.floor_nonneg]
    positivity
  rw [Int.toNat_lt h3]
  exact h2

/-- **C10.** For every non-empty latency list the three percentile
indexes actually used — `floor(n*0.5)`, `floor(n*0.95)`, `floor(n*0.99)`
— are strictly below `n`, so the unclamped indexing never reads out of
bounds and every reported percentile is an element of the sorted
latency list. -/
theorem c10_percentile_in_bounds (times : List ℚ) (h : times ≠ []) :
    percentileIndex times.length (1 / 2) < times.length ∧
    percentileIndex times.length (95 / 100) < times.length ∧
    percentileIndex times.length (99 / 100) < times.length ∧
    (∃ x ∈ times.insertionSort (· ≤ ·), (computeStats times).p50 = some x) ∧
    (∃ x ∈ times.insertionSort (· ≤ ·), (computeStats times).p95 = some x) ∧
    (∃ x ∈ times.insertionSort (· ≤ ·), (computeStats times).p99 = some x) := by
  have hn : 0 < times.length := List.length_pos.mpr h
  have hlen : (times.insertionSort (· ≤ ·)).length = times.length :=
    List.length_insertionSort _ _
  have h50 := percentileIndex_lt times.length hn (1 / 2) (by norm_num) (by norm_num)
  have h95 := percentileIndex_lt times.length hn (95 / 100) (by norm_num) (by norm_num)
  have h99 := percentileIndex_lt times.length hn (99 / 100) (by norm_num) (by norm_num)
  have key : ∀ p : ℚ, percentileIndex times.length p < times.length →
      ∃ x ∈ times.insertionSort (· ≤ ·),
        (times.insertionSort (· ≤ ·))[percentileIndex
          (times.insertionSort (· ≤ ·)).length p]? = some x := by
    intro p hp
    have hp2 : percentileIndex (times.insertionSort (· ≤ ·)).length p <
        (times.insertionSort (· ≤ ·)).length := by
      rw [hlen]
      exact hp
    exact ⟨_, List.getElem_mem hp2, List.getElem?_eq_getElem hp2⟩
  exact ⟨h50, h95, h99, key _ h50, key _ h95, key _ h99⟩

/-- Witness for C10 at the one-element list `[5]`. -/
theorem c10_percentile_in_bounds_witness :
    percentileIndex [(5 : ℚ)].length (1 / 2) < [(5 : ℚ)].length ∧
    percentileIndex [(5 : ℚ)].length (95 / 100) < [(5 : ℚ)].length ∧
    percentileIndex [(5 : ℚ)].length (99 / 100) < [(5 : ℚ)].length ∧
    (∃ x ∈ [(5 : ℚ)].insertionSort (· ≤ ·),
      (computeStats [(5 : ℚ)]).p50 = some x) ∧
    (∃ x ∈ [(5 : ℚ)].insertionSort (· ≤ ·),
      (computeStats [(5 : ℚ)]).p95 = some x) ∧
    (∃ x ∈ [(5 : ℚ)].insertionSort (· ≤ ·),
      (computeStats [(5 : ℚ)]).p99 = some x) :=
  c10_percentile_in_bounds [(5 : ℚ)] (List.cons_ne_nil 5 [])

/-! ## C2: exit status -/

/-- **C2 is false as stated**: here an unexpected fault escapes the very
first scenario run, yet the process exits with status 0, not 1 — the
fault is swallowed by the `catch` block inside `runBenchmarks`
(benchmark.js:256) and never reaches the top-level `.catch` that calls
`process.exit(1)`. -/
theorem c2_counterexample :
    envScenarioFault.scenarioFails 0 = true ∧
    (runBenchmarks envScenarioFault).exitCode = 0 ∧
    (runBenchmarks envScenarioFault).exitCode ≠ 1 := by
  refine ⟨rfl, by decide, by decide⟩

/-- **C2 (amended).** The process exits with status 1 exactly when the
server fails to start (the fault raised before the `try` block rejects
the promise of `runBenchmarks` and reaches the top-level
`process.exit(1)`); an unexpected fault escaping a scenario run is
caught inside `runBenchmarks`, so those runs — like fault-free runs —
end with exit status 0. -/
theorem c2_exit_status (env : RunEnv) :
    ((runBenchmarks env).exitCode = 1 ↔ env.listenOk = false) ∧
    ((runBenchmarks env).exitCode = 0 ↔ env.listenOk = true) := by
  unfold runBenchmarks
  cases h : env.listenOk
  · simp
  · rcases hf : firstFailing env with _ | i <;> simp [hf]

/-! ## C6: no partial report -/

/-- **C6.** If a fault aborts the benchmark midway through the scenario
list, already-collected results are discarded from the final report: the
summary table is not printed at all, even though every scenario before
the failing one did complete. -/
theorem c6_no_partial_report (env : RunEnv) (i : ℕ)
    (hlisten : env.listenOk = true) (hfail : firstFailing env = some i) :
    RunEvent.summaryPrinted ∉ (runBenchmarks env).events ∧
    ∀ j < i, RunEvent.scenarioRun j ∈ (runBenchmarks env).events := by
  unfold runBenchmarks
  rw [hlisten, hfail]
  constructor
  · simp
  · intro j hj
    simp only [if_true]
    simp [List.mem_append, List.mem_map, List.mem_range]
    omega

/-- Witness for C6: with the third scenario faulting, the first two ran
but no summary is printed. -/
theorem c6_no_partial_report_witness :
    RunEvent.summaryPrinted ∉ (runBenchmarks envThirdFails).events ∧
    ∀ j < 2, RunEvent.scenarioRun j ∈ (runBenchmarks envThirdFails).events :=
  c6_no_partial_report envThirdFails 2 rfl (by decide)

/-! ## C7: guaranteed server teardown -/

/-- **C7.** Once the server has started, every exit path of the run —
all six scenarios completing, or a fault raised mid-run — closes the
server before the run ends (the `finally` block, benchmark.js:258). -/
theorem c7_server_teardown (env : RunEnv) (h : env.listenOk = true) :
    RunEvent.serverClosed ∈ (runBenchmarks env).events := by
  unfold runBenchmarks
  rw [h]
  rcases hf : firstFailing env with _ | i <;> simp [hf]

/-- Witness for C7 on a fault-free run. -/
theorem c7_server_teardown_witness :
    RunEvent.serverClosed ∈
      (runBenchmarks { listenOk := true, scenarioFails := fun _ => false }).events :=
  c7_server_teardown { listenOk := true, scenarioFails := fun _ => false } rfl

/-! ## C8: exactly one outcome per dispatched request -/

theorem makeRequest_cons (e : MREvent) (es : List MREvent) :
    makeRequest (e :: es) = some (settleOf e) := by
  unfold makeRequest
  rw [List.foldl_cons]
  generalize settleOf e = o
  induction es with
  | nil => rfl
  | cons e2 es ih =>
    rw [List.foldl_cons]
    exact ih

/-- **C8.** Every dispatched measurement request produces exactly one
outcome: the promise settles once (the first callback wins), and the
attached handlers then add exactly one latency sample or exactly one
error increment — never both and never neither — even when the timeout
callback fires and a transport-error event follows for the same
request. -/
theorem c8_exactly_one_outcome (events : List MREvent) (h : events ≠ []) :
    (∃ o : Outcome, makeRequest events = some o ∧
      ∀ (times : List ℚ) (errors : ℕ),
        (processOutcome (times, errors) o).1.length +
            (processOutcome (times, errors) o).2 = times.length + errors + 1 ∧
        (((processOutcome (times, errors) o).1.length = times.length + 1 ∧
            (processOutcome (times, errors) o).2 = errors) ∨
          ((processOutcome (times, errors) o).1.length = times.length ∧
            (processOutcome (times, errors) o).2 = errors + 1))) ∧
    (∀ rest : List MREvent,
      makeRequest (MREvent.timeoutFire :: rest) = some Outcome.failure) := by
  constructor
  · rcases events with _ | ⟨e, es⟩
    · exact absurd rfl h
    · refine ⟨settleOf e, makeRequest_cons e es, ?_⟩
      intro times errors
      cases e <;> simp [settleOf, processOutcome] <;> omega
  · intro rest
    exact makeRequest_cons MREvent.timeoutFire rest

/-- Witness for C8: the timeout callback fires, then the transport-error
event fires for the same request. -/
theorem c8_exactly_one_outcome_witness :
    (∃ o : Outcome, makeRequest [MREvent.timeoutFire, MREvent.errorEv] = some o ∧
      ∀ (times : List ℚ) (errors : ℕ),
        (processOutcome (times, errors) o).1.length +
            (processOutcome (times, errors) o).2 = times.length + errors + 1 ∧
        (((processOutcome (times, errors) o).1.length = times.length + 1 ∧
            (processOutcome (times, errors) o).2 = errors) ∨
          ((processOutcome (times, errors) o).1.length = times.length ∧
            (processOutcome (times, errors) o).2 = errors + 1))) ∧
    (∀ rest : List MREvent,
      makeRequest (MREvent.timeoutFire :: rest) = some Outcome.failure) :=
  c8_exactly_one_outcome [MREvent.timeoutFire, MREvent.errorEv]
    (List.cons_ne_nil _ _)

/-! ## C9: sequential, discarded warmup -/

theorem warmupTrace_succ (n : ℕ) :
    warmupTrace (n + 1) =
      warmupTrace n ++ [PhaseEvent.dispatch n, PhaseEvent.settleEv n] := by
  unfold warmupTrace
  rw [List.range_succ, List.flatMap_append]
  rfl

theorem warmupTrace_counts (n : ℕ) :
    (warmupTrace n).countP isDispatchW = n ∧
    (warmupTrace n).countP isSettleW = n ∧
    (warmupTrace n).length = 2 * n := by
  induction n with
  | zero => simp [warmupTrace]
  | succ n ih =>
    obtain ⟨h1, h2, h3⟩ := ih
    rw [warmupTrace_succ]
    refine ⟨?_, ?_, ?_⟩ <;>
      · simp [List.countP_append, List.countP_cons, h1, h2, h3,
          isDispatchW, isSettleW]
        try omega

theorem warmupTrace_take_bound (n k : ℕ) :
    ((warmupTrace n).take k).countP isDispatchW ≤
      ((warmupTrace n).take k).countP isSettleW + 1 := by
  induction n generalizing k with
  | zero => simp [warmupTrace]
  | succ n ih =>
    rw [warmupTrace_succ, List.take_append_eq_append_take,
      List.countP_append, List.countP_append, (warmupTrace_counts n).2.2]
    rcases hk : k - 2 * n with _ | m
    · simp only [List.take_zero, List.countP_nil, Nat.add_zero]
      exact ih k
    · have htk : (warmupTrace n).take k = warmupTrace n :=
        List.take_of_length_le (by rw [(warmupTrace_counts n).2.2]; omega)
      rw [htk, (warmupTrace_counts n).1, (warmupTrace_counts n).2.1]
      rcases m with _ | m2 <;>
        simp [List.countP_cons, isDispatchW, isSettleW]

/-- **C9.** The warmup phase issues exactly `warmupCount` requests
strictly sequentially — in every prefix of its event trace at most one
request is in flight — and every warmup outcome, success or failure, is
discarded: the `(times, errors)` accumulator is untouched, and the
produced `ScenarioResult` is independent of the warmup outcomes. -/
theorem c9_warmup_sequential_discarded (warmupCount : ℕ) :
    (warmupTrace warmupCount).countP isDispatchW = warmupCount ∧
    (∀ k, ((warmupTrace warmupCount).take k).countP isDispatchW ≤
      ((warmupTrace warmupCount).take k).countP isSettleW + 1) ∧
    (∀ (wEnv : ℕ → Outcome) (st : List ℚ × ℕ),
      runWarmup wEnv warmupCount st = st) ∧
    (∀ (name : String) (wEnv wEnv2 env : ℕ → Outcome) (count batchSize : ℕ)
      (totalTime : ℚ),
      benchmarkRoute name wEnv env warmupCount count batchSize totalTime =
        benchmarkRoute name wEnv2 env warmupCount count batchSize totalTime) := by
  refine ⟨(warmupTrace_counts warmupCount).1,
    fun k => warmupTrace_take_bound warmupCount k,
    fun wEnv st => runWarmup_eq wEnv warmupCount st, ?_⟩
  intro name wEnv wEnv2 env count batchSize totalTime
  unfold benchmarkRoute
  rw [runWarmup_eq, runWarmup_eq]

/-! ## C4: full-barrier batching -/

theorem numBatches_ceil (B count : ℕ) (hB : 0 < B) :
    count ≤ numBatches B count * B ∧ numBatches B count * B < count + B := by
  rcases Nat.eq_zero_or_pos count with h0 | hc
  · subst h0
    rw [numBatches_zero B hB]
    omega
  · rw [numBatches_pos B count hB hc]
    have hdm := Nat.div_add_mod (count - 1) B
    have hlt : (count - 1) % B < B := Nat.mod_lt _ hB
    have hmul : ((count - 1) / B + 1) * B = B * ((count - 1) / B) + B := by ring
    rw [hmul]
    generalize B * ((count - 1) / B) = x at hdm ⊢
    omega

theorem batchBlock_countP_dispatch (B count : ℕ) (σ : ℕ → List ℕ) (k j : ℕ) :
    (batchBlock B count j σ).countP (fun e => isDispatchB e && (batchOf e == k)) =
      if j = k then batchCount B count j else 0 := by
  unfold batchBlock
  rw [List.countP_append, List.countP_map, List.countP_map]
  have h1 : ((fun e => isDispatchB e && (batchOf e == k)) ∘ BatchEvent.dispatch j) =
      fun _ : ℕ => (j == k) := by
    funext i
    simp [isDispatchB, batchOf]
  have h2 : ((fun e => isDispatchB e && (batchOf e == k)) ∘ BatchEvent.settleEv j) =
      fun _ : ℕ => false := by
    funext i
    simp [isDispatchB]
  rw [h1, h2]
  by_cases hj : j = k
  · subst hj
    simp [List.length_range]
  · simp [hj]

theorem batchBlock_countP_settle (B count : ℕ) (σ : ℕ → List ℕ) (k j : ℕ) :
    (batchBlock B count j σ).countP (fun e => isSettleB e && (batchOf e == k)) =
      if j = k then (σ j).length else 0 := by
  unfold batchBlock
  rw [List.countP_append, List.countP_map, List.countP_map]
  have h1 : ((fun e => isSettleB e && (batchOf e == k)) ∘ BatchEvent.dispatch j) =
      fun _ : ℕ => false := by
    funext i
    simp [isSettleB]
  have h2 : ((fun e => isSettleB e && (batchOf e == k)) ∘ BatchEvent.settleEv j) =
      fun _ : ℕ => (j == k) := by
    funext i
    simp [isSettleB, batchOf]
  rw [h1, h2]
  by_cases hj : j = k
  · subst hj
    simp
  · simp [hj]

theorem sum_map_single_support (g : ℕ → ℕ) (k : ℕ)
    (hg : ∀ j, j ≠ k → g j = 0) :
    ∀ m, ((List.range m).map g).sum = if k < m then g k else 0 := by
  intro m
  induction m with
  | zero => simp
  | succ m ih =>
    rw [List.range_succ, List.map_append, List.sum_append, ih]
    simp only [List.map_cons, List.map_nil, List.sum_cons, List.sum_nil]
    by_cases hkm : m = k
    · subst hkm
      have h1 : ¬ m < m := by omega
      have h2 : m < m + 1 := by omega
      rw [if_neg h1, if_pos h2]
      omega
    · rw [hg m hkm]
      split_ifs <;> omega

theorem measurementTrace_dispatch_total (B count : ℕ) (hB : 0 < B)
    (σ : ℕ → List ℕ) :
    (measurementTrace B count σ).countP isDispatchB = count := by
  unfold measurementTrace
  rw [List.flatMap_def, List.countP_flatten, List.map_map]
  have hmap : (List.range (numBatches B count)).map
      (List.countP isDispatchB ∘ fun k => batchBlock B count k σ) =
      (List.range (numBatches B count)).map (fun k => batchCount B count k) := by
    apply List.map_congr_left
    intro k _
    simp only [Function.comp_apply]
    unfold batchBlock
    rw [List.countP_append, List.countP_map, List.countP_map]
    have h1 : (isDispatchB ∘ BatchEvent.dispatch k) = fun _ : ℕ => true := by
      funext i
      rfl
    have h2 : (isDispatchB ∘ BatchEvent.settleEv k) = fun _ : ℕ => false := by
      funext i
      rfl
    rw [h1, h2]
    simp [List.length_range]
  rw [hmap, sum_batchCount B hB count]

theorem measurementTrace_batch_dispatch (B count : ℕ) (σ : ℕ → List ℕ) (k : ℕ) :
    (measurementTrace B count σ).countP
      (fun e => isDispatchB e && (batchOf e == k)) =
      if k < numBatches B count then batchCount B count k else 0 := by
  unfold measurementTrace
  rw [List.flatMap_def, List.countP_flatten, List.map_map]
  have hmap : (List.range (numBatches B count)).map
      (List.countP (fun e => isDispatchB e && (batchOf e == k)) ∘
        fun j => batchBlock B count j σ) =
      (List.range (numBatches B count)).map
        (fun j => if j = k then batchCount B count j else 0) := by
    apply List.map_congr_left
    intro j _
    simp only [Function.comp_apply]
    exact batchBlock_countP_dispatch B count σ k j
  rw [hmap, sum_map_single_support _ k (fun j hj => by simp [hj])]
  simp

theorem measurementTrace_batch_settle (B count : ℕ) (σ : ℕ → List ℕ) (k : ℕ) :
    (measurementTrace B count σ).countP
      (fun e => isSettleB e && (batchOf e == k)) =
      if k < numBatches B count then (σ k).length else 0 := by
  unfold measurementTrace
  rw [List.flatMap_def, List.countP_flatten, List.map_map]
  have hmap : (List.range (numBatches B count)).map
      (List.countP (fun e => isSettleB e && (batchOf e == k)) ∘
        fun j => batchBlock B count j σ) =
      (List.range (numBatches B count)).map
        (fun j => if j = k then (σ j).length else 0) := by
    apply List.map_congr_left
    intro j _
    simp only [Function.comp_apply]
    exact batchBlock_countP_settle B count σ k j
  rw [hmap, sum_map_single_support _ k (fun j hj => by simp [hj])]
  simp

theorem batchBlock_mem_batch (B count : ℕ) (σ : ℕ → List ℕ) (k : ℕ)
    (e : BatchEvent) (he : e ∈ batchBlock B count k σ) : batchOf e = k := by
  unfold batchBlock at he
  rw [List.mem_append] at he
  rcases he with h | h <;> rw [List.mem_map] at h <;> obtain ⟨i, _, rfl⟩ := h <;> rfl

theorem measurementTrace_key_sorted (B count : ℕ) (σ : ℕ → List ℕ) :
    (measurementTrace B count σ).Pairwise (fun a b => eventKey a ≤ eventKey b) := by
  unfold measurementTrace
  rw [List.flatMap_def, List.pairwise_flatten]
  constructor
  · intro l hl
    rw [List.mem_map] at hl
    obtain ⟨k, _, rfl⟩ := hl
    unfold batchBlock
    rw [List.pairwise_append]
    refine ⟨?_, ?_, ?_⟩
    · rw [List.pairwise_map]
      exact List.pairwise_of_forall (fun a b => by simp [eventKey])
    · rw [List.pairwise_map]
      exact List.pairwise_of_forall (fun a b => by simp [eventKey])
    · intro a ha b hb
      rw [List.mem_map] at ha hb
      obtain ⟨i, _, rfl⟩ := ha
      obtain ⟨i2, _, rfl⟩ := hb
      simp [eventKey]
  · rw [List.pairwise_map]
    apply List.Pairwise.imp ?_ (List.pairwise_lt_range (numBatches B count))
    intro k1 k2 hk x hx y hy
    have hbx := batchBlock_mem_batch B count σ k1 x hx
    have hby := batchBlock_mem_batch B count σ k2 y hy
    have hx2 : eventKey x ≤ 2 * k1 + 1 := by
      cases x <;> simp [eventKey, batchOf] at hbx ⊢ <;> omega
    have hy2 : 2 * k2 ≤ eventKey y := by
      cases y <;> simp [eventKey, batchOf] at hby ⊢ <;> omega
    omega

/-- **C4.** Full-barrier batching of the measurement phase: the request
count is covered by `ceil(count / concurrencyLimit)` batches
(`numBatches * B` is the least multiple of `B` at or above `count`); all
batches together issue exactly `count` dispatches; each batch dispatches
at most `concurrencyLimit` requests; each batch settles exactly as many
requests as it dispatched before the next batch starts; and no dispatch
of a later batch occurs anywhere before a settlement of an earlier
batch in the trace. -/
theorem c4_full_barrier_batching (B count : ℕ) (hB : 0 < B) (σ : ℕ → List ℕ)
    (hσ : ∀ k, (σ k).Perm (List.range (batchCount B count k))) :
    (count ≤ numBatches B count * B ∧ numBatches B count * B < count + B) ∧
    (measurementTrace B count σ).countP isDispatchB = count ∧
    (∀ k, (measurementTrace B count σ).countP
      (fun e => isDispatchB e && (batchOf e == k)) ≤ B) ∧
    (∀ k, k < numBatches B count →
      (measurementTrace B count σ).countP
        (fun e => isSettleB e && (batchOf e == k)) = batchCount B count k) ∧
    (∀ p q a b j i : ℕ,
      (measurementTrace B count σ)[p]? = some (BatchEvent.settleEv a j) →
      (measurementTrace B count σ)[q]? = some (BatchEvent.dispatch b i) →
      a < b → p < q) := by
  refine ⟨numBatches_ceil B count hB,
    measurementTrace_dispatch_total B count hB σ, ?_, ?_, ?_⟩
  · intro k
    rw [measurementTrace_batch_dispatch B count σ k]
    split_ifs
    · exact min_le_left _ _
    · omega
  · intro k hk
    rw [measurementTrace_batch_settle B count σ k, if_pos hk]
    rw [(hσ k).length_eq, List.length_range]
  · intro p q a b j i hp hq hab
    by_contra hpq
    push_neg at hpq
    rw [List.getElem?_eq_some] at hp hq
    obtain ⟨hp1, hp2⟩ := hp
    obtain ⟨hq1, hq2⟩ := hq
    have hsorted := measurementTrace_key_sorted B count σ
    rw [List.pairwise_iff_getElem] at hsorted
    rcases Nat.eq_or_lt_of_le hpq with heq | hlt
    · subst heq
      have hcontra : BatchEvent.settleEv a j = BatchEvent.dispatch b i := by
        rw [← hp2]
        exact hq2
      simp at hcontra
    · have hkey := hsorted q p hq1 hp1 hlt
      rw [hp2, hq2] at hkey
      simp [eventKey] at hkey
      omega

/-- Witness for C4: five requests in batches of two, with each batch
settling in dispatch order. -/
theorem c4_full_barrier_batching_witness :
    (5 ≤ numBatches 2 5 * 2 ∧ numBatches 2 5 * 2 < 5 + 2) ∧
    (measurementTrace 2 5 (fun k => List.range (batchCount 2 5 k))).countP
      isDispatchB = 5 ∧
    (∀ k, (measurementTrace 2 5 (fun k => List.range (batchCount 2 5 k))).countP
      (fun e => isDispatchB e && (batchOf e == k)) ≤ 2) ∧
    (∀ k, k < numBatches 2 5 →
      (measurementTrace 2 5 (fun k => List.range (batchCount 2 5 k))).countP
        (fun e => isSettleB e && (batchOf e == k)) = batchCount 2 5 k) ∧
    (∀ p q a b j i : ℕ,
      (measurementTrace 2 5 (fun k => List.range (batchCount 2 5 k)))[p]? =
        some (BatchEvent.settleEv a j) →
      (measurementTrace 2 5 (fun k => List.range (batchCount 2 5 k)))[q]? =
        some (BatchEvent.dispatch b i) →
      a < b → p < q) :=
  c4_full_barrier_batching 2 5 (by decide) (fun k => List.range (batchCount 2 5 k))
    (fun k => List.Perm.refl _)

end Bench
